import Mathlib

/-!
Verification of the menu-item selection resolution logic of the navigation
dialog (MenuItemDialog): the selection-key decoder `getMenuItemData`, the
option-tree search `findMenuItem`, the display-label resolver
`getDisplayValue`, the option-tree construction, and the query/selection
handlers of the coordinator.

Strings are modelled as Lean `String` (a structure over `List Char`); the
JavaScript `value.split(":")` and `idParts.join(":")` are embedded at the
character-list level by `splitOnColon` and `joinColon`.  A JavaScript
runtime failure (dereferencing `undefined`) is modelled by the explicit
error value `JsError.typeError`, so fallible code returns `Except`.
-/

/-- A label of an option-tree node: the source allows a plain string or a
rendered React element (the synthetic link leaf uses a rendered element). -/
inductive MenuLabel where
  | str (s : String)
  | element (html : String)

/-- JavaScript `label.toString()`: a string is returned unchanged, a plain
object (React element) stringifies to "[object Object]". -/
def labelToString : MenuLabel → String
  | .str s => s
  | .element _ => "[object Object]"

/-- The decoded selection key.  In the TypeScript source the second field is
annotated `MenuItemType`, but it is produced by an unchecked cast
(`type as MenuItemType`), so at runtime it can hold any string; it is
therefore embedded as `String`. -/
structure MenuItemData where
  id : String
  type : String
deriving DecidableEq

/-- Membership in the closed TypeScript union
`MenuItemType = "category" | "collection" | "link" | "page"`. -/
def isMenuItemType (s : String) : Bool :=
  s == "category" || s == "collection" || s == "link" || s == "page"

/-- JavaScript `value.split(":")` at the character-list level: splits at
every colon; the empty string yields one empty segment. -/
def splitOnColon : List Char → List (List Char)
  | [] => [[]]
  | c :: cs =>
    if c = ':' then [] :: splitOnColon cs
    else
      match splitOnColon cs with
      | [] => [[c]]
      | p :: ps => (c :: p) :: ps

/-- JavaScript `parts.join(":")` at the character-list level. -/
def joinColon : List (List Char) → List Char
  | [] => []
  | [p] => p
  | p :: ps => p ++ ':' :: joinColon ps

/-- The selection-key decoder (source: `getMenuItemData`):
`const [type, ...idParts] = value.split(":")`; the id is
`idParts.join(":")` and the type is the first segment, cast without
validation. -/
def getMenuItemData (value : String) : MenuItemData :=
  match splitOnColon value.data with
  | [] => { id := "", type := "" }
  | ty :: idParts => { id := String.mk (joinColon idParts), type := String.mk ty }

/-- An option-tree node (source: `SelectMenuItem`): an optional `value`
(present on leaves) and an optional `children` list (present on groups).
Both fields are optional in the source type, so a node may carry both. -/
inductive SelectMenuItem where
  | mk (label : MenuLabel) (value : Option String) (children : Option (List SelectMenuItem))

def SelectMenuItem.label : SelectMenuItem → MenuLabel
  | .mk l _ _ => l

def SelectMenuItem.value : SelectMenuItem → Option String
  | .mk _ v _ => v

def SelectMenuItem.children : SelectMenuItem → Option (List SelectMenuItem)
  | .mk _ _ c => c

/-- The option-tree search (source: `findMenuItem`).  The source maps every
node to a candidate (recursing whenever `menuItem.children` is truthy —
a present array, even an empty one; otherwise comparing `menuItem.value`
with the target) and returns the first candidate that is not `undefined`;
this is embedded by the equivalent first-hit recursion, `Option.or` being
exactly "first non-undefined". -/
def findMenuItem : List SelectMenuItem → String → Option SelectMenuItem
  | [], _ => none
  | .mk _ _ (some cs) :: rest, value =>
    (findMenuItem cs value).or (findMenuItem rest value)
  | .mk l v none :: rest, value =>
    if v == some value then some (.mk l v none) else findMenuItem rest value

/-- The leaf nodes of an option tree in depth-first order (children of a
group before later siblings): the traversal order of `findMenuItem`,
used to state its specification. -/
def dfsLeaves : List SelectMenuItem → List SelectMenuItem
  | [] => []
  | .mk _ _ (some cs) :: rest => dfsLeaves cs ++ dfsLeaves rest
  | .mk l v none :: rest => .mk l v none :: dfsLeaves rest

/-- A JavaScript runtime failure. -/
inductive JsError where
  | typeError
deriving DecidableEq

/-- The display-label resolver (source: `getDisplayValue`).  For a decoded
type `"link"` it returns the decoded id.  Otherwise it evaluates
`findMenuItem(menu, value).label.toString()`: when the search finds no
node this dereferences `undefined` and throws, embedded as
`Except.error JsError.typeError`. -/
def getDisplayValue (menu : List SelectMenuItem) (value : String) :
    Except JsError String :=
  let menuItemData := getMenuItemData value
  if menuItemData.type = "link" then
    Except.ok menuItemData.id
  else
    match findMenuItem menu value with
    | some item => Except.ok (labelToString item.label)
    | none => Except.error JsError.typeError

/-- A category search result (source: `SearchCategories_categories_edges_node`,
the fields used by the dialog). -/
structure Category where
  id : String
  name : String
deriving DecidableEq

/-- A collection search result (source:
`SearchCollections_collections_edges_node`, the fields used by the dialog). -/
structure Collection where
  id : String
  name : String
deriving DecidableEq

/-- The translated group label for the category group; the i18n call
interpolates the count into the default template. -/
def categoriesGroupLabel (n : Nat) : MenuLabel :=
  .str ("Categories (" ++ toString n ++ ")")

/-- The translated group label for the collection group. -/
def collectionsGroupLabel (n : Nat) : MenuLabel :=
  .str ("Collections (" ++ toString n ++ ")")

/-- The rendered label of the synthetic link leaf: a React element whose
inner HTML interpolates the URL. -/
def linkLabel (url : String) : MenuLabel :=
  .element ("link to: <strong>" ++ url ++ "</strong>")

/-- Truthiness of a JavaScript `string | undefined` value: `undefined` and
the empty string are falsy. -/
def jsTruthyStr : Option String → Bool
  | none => false
  | some s => !(s == "")

/-- The option-tree construction from the body of `MenuItemDialog`:
start from `[]`; append a category group when `categories.length > 0`
(leaves keyed `"category:" + id`); append a collection group when
`collections.length > 0` (leaves keyed `"collection:" + id`); finally,
`if (url)` — truthy, so a non-empty detected URL — replace the whole
list with the single synthetic link leaf keyed `"link:" + url`. -/
def buildOptions (categories : List Category) (collections : List Collection)
    (url : Option String) : List SelectMenuItem :=
  let options : List SelectMenuItem := []
  let options :=
    if categories.length > 0 then
      options ++ [SelectMenuItem.mk (categoriesGroupLabel categories.length) none
        (some (categories.map fun category =>
          SelectMenuItem.mk (.str category.name) (some ("category:" ++ category.id)) none))]
    else options
  let options :=
    if collections.length > 0 then
      options ++ [SelectMenuItem.mk (collectionsGroupLabel collections.length) none
        (some (collections.map fun collection =>
          SelectMenuItem.mk (.str collection.name) (some ("collection:" ++ collection.id)) none))]
    else options
  match url with
  | some u => if u == "" then options else [SelectMenuItem.mk (linkLabel u) (some ("link:" ++ u)) none]
  | none => options

/-- The query-change handler (source: `handleQueryChange`), as a transition
on the `url` state: if `isUrl(query)` then `setUrl(query)`, else if `url`
is truthy then `setUrl(undefined)`, else the state is untouched; in every
case `onQueryChange(query)` is called once — the emitted calls are
returned as a list.  The URL classifier `isUrl` is the external `is-url`
package and is taken as a parameter. -/
def handleQueryChange (isUrl : String → Bool) (url : Option String)
    (query : String) : Option String × List String :=
  let url' :=
    if isUrl query then some query
    else if jsTruthyStr url then none
    else url
  (url', [query])

/-- The submittable form record (source: `MenuItemDialogFormData`); the
`type` field is embedded as `String` for the same reason as in
`MenuItemData`. -/
structure MenuItemDialogFormData where
  id : String
  name : String
  type : String
deriving DecidableEq

/-- The default form record (source: `defaultInitial`). -/
def defaultInitial : MenuItemDialogFormData :=
  { id := "", name := "", type := "category" }

/-- The initial value handed to the form (source: `initial || defaultInitial`). -/
def formInitial (initial : Option MenuItemDialogFormData) : MenuItemDialogFormData :=
  initial.getD defaultInitial

/-- One state update committed by the selection-change handler, in commit
order: a form-field write or a display-value write. -/
inductive UpdateEvent where
  | setFormField (field : String) (newValue : String)
  | setDisplay (newValue : String)
deriving DecidableEq

/-- Modelled from the spec: the Form component is not part of the excerpt;
per the spec its change handler writes the named field into the form
data and then invokes the continuation on the committed state. -/
def formChange (data : MenuItemDialogFormData) (field newValue : String) :
    MenuItemDialogFormData :=
  if field = "id" then { data with id := newValue }
  else if field = "type" then { data with type := newValue }
  else if field = "name" then { data with name := newValue }
  else data

/-- The coordinator state read by the selection flow: the form data and the
visible display label. -/
structure CoordState where
  data : MenuItemDialogFormData
  displayValue : String
deriving DecidableEq

def applyEvent (st : CoordState) : UpdateEvent → CoordState
  | .setFormField field newValue => { st with data := formChange st.data field newValue }
  | .setDisplay newValue => { st with displayValue := newValue }

def applyEvents (st : CoordState) (events : List UpdateEvent) : CoordState :=
  events.foldl applyEvent st

/-- The selection-change handler (source: `handleSelectChange`): decode the
selected value, then the chained callbacks commit, in order, the `id`
field, the `type` field, and the resolved display label.  The nested
callback chain of the source linearises to this event sequence; when
`getDisplayValue` throws, the two form-field commits have already
happened and the handler then fails. -/
def handleSelectChange (options : List SelectMenuItem) (value : String) :
    List UpdateEvent × Option JsError :=
  let menuItemData := getMenuItemData value
  match getDisplayValue options value with
  | .ok label =>
    ([.setFormField "id" menuItemData.id,
      .setFormField "type" menuItemData.type,
      .setDisplay label], none)
  | .error e =>
    ([.setFormField "id" menuItemData.id,
      .setFormField "type" menuItemData.type], some e)

theorem string_data_append (s t : String) : (s ++ t).data = s.data ++ t.data := by
  cases s; cases t; rfl

theorem string_mk_data (s : String) : String.mk s.data = s := by
  cases s; rfl

theorem splitOnColon_ne_nil (cs : List Char) : splitOnColon cs ≠ [] := by
  induction cs with
  | nil => simp [splitOnColon]
  | cons c cs ih =>
    simp only [splitOnColon]
    split
    · simp
    · split
      · simp
      · simp

theorem joinColon_splitOnColon (cs : List Char) : joinColon (splitOnColon cs) = cs := by
  induction cs with
  | nil => rfl
  | cons c cs ih =>
    simp only [splitOnColon]
    split
    · rename_i h
      subst h
      cases h2 : splitOnColon cs with
      | nil => exact absurd h2 (splitOnColon_ne_nil cs)
      | cons p ps =>
        rw [h2] at ih
        cases ps with
        | nil => simp [joinColon] at ih ⊢; exact ih
        | cons q qs => simp [joinColon] at ih ⊢; exact ih
    · cases h2 : splitOnColon cs with
      | nil => exact absurd h2 (splitOnColon_ne_nil cs)
      | cons p ps =>
        rw [h2] at ih
        cases ps with
        | nil => simpa [joinColon] using congrArg (c :: ·) ih
        | cons q qs => simp [joinColon] at ih ⊢; rw [← ih]

theorem splitOnColon_append (t rest : List Char) (h : ':' ∉ t) :
    splitOnColon (t ++ ':' :: rest) = t :: splitOnColon rest := by
  induction t with
  | nil => simp [splitOnColon]
  | cons c cs ih =>
    have hc : ¬ c = ':' := by rintro rfl; exact h (List.mem_cons_self _ _)
    have ih2 := ih (fun hm => h (List.mem_cons_of_mem _ hm))
    simp only [List.cons_append, splitOnColon, if_neg hc]
    rw [show cs.append (':' :: rest) = cs ++ ':' :: rest from rfl, ih2]

theorem getMenuItemData_encode (t id : String) (h : ':' ∉ t.data) :
    getMenuItemData (t ++ ":" ++ id) = { id := id, type := t } := by
  have h1 : (t ++ ":" ++ id).data = t.data ++ ':' :: id.data := by
    rw [string_data_append, string_data_append]
    simp [List.append_assoc]
  simp only [getMenuItemData, h1, splitOnColon_append _ _ h, joinColon_splitOnColon,
    string_mk_data]

theorem findMenuItem_eq_dfs (menu : List SelectMenuItem) (value : String) :
    findMenuItem menu value = (dfsLeaves menu).find? (fun item => item.value == some value) := by
  induction menu, value using findMenuItem.induct
  all_goals simp_all [findMenuItem, dfsLeaves, List.find?_append, SelectMenuItem.value, List.find?]

theorem dfsLeaves_children_eq_none (menu : List SelectMenuItem) :
    ∀ r ∈ dfsLeaves menu, r.children = none := by
  induction menu using dfsLeaves.induct
  case case1 => simp [dfsLeaves]
  case case2 lab wal cs rest ihcs ihrest =>
    intro r hr
    simp only [dfsLeaves, List.mem_append] at hr
    rcases hr with hl | hl
    · exact ihcs r hl
    · exact ihrest r hl
  case case3 l v rest ih =>
    intro r hr
    simp only [dfsLeaves, List.mem_cons] at hr
    rcases hr with rfl | hl
    · rfl
    · exact ih r hl

/-- Claim C1: for every type tag in the four-member enumeration and every id
string (colons in the id included), decoding the selection key
`type ++ ":" ++ id` with `getMenuItemData` returns exactly that type and
that id: the split happens at the first colon only. -/
theorem selection_key_roundtrip (t id : String)
    (h : t = "category" ∨ t = "collection" ∨ t = "link" ∨ t = "page") :
    getMenuItemData (t ++ ":" ++ id) = { id := id, type := t } := by
  apply getMenuItemData_encode
  rcases h with rfl | rfl | rfl | rfl <;> decide

theorem selection_key_roundtrip_check :
    getMenuItemData ("link" ++ ":" ++ "https://a.b/c") =
      { id := "https://a.b/c", type := "link" } :=
  selection_key_roundtrip "link" "https://a.b/c" (Or.inr (Or.inr (Or.inl rfl)))

/-- Claim C2: `findMenuItem` returns none exactly when no leaf of the tree
carries the target value, and otherwise returns the first matching leaf
in depth-first order (children of a group before later siblings). -/
theorem findMenuItem_spec (menu : List SelectMenuItem) (value : String) :
    (findMenuItem menu value = none ↔ ∀ item ∈ dfsLeaves menu, ¬ item.value = some value)
    ∧ findMenuItem menu value =
        (dfsLeaves menu).find? (fun item => item.value == some value) := by
  refine ⟨?_, findMenuItem_eq_dfs menu value⟩
  rw [findMenuItem_eq_dfs, List.find?_eq_none]
  simp

theorem findMenuItem_spec_check :
    (findMenuItem [SelectMenuItem.mk (.str "G") none
        (some [SelectMenuItem.mk (.str "A") (some "collection:42") none])] "collection:42" = none
      ↔ ∀ item ∈ dfsLeaves [SelectMenuItem.mk (.str "G") none
        (some [SelectMenuItem.mk (.str "A") (some "collection:42") none])],
          ¬ item.value = some "collection:42")
    ∧ findMenuItem [SelectMenuItem.mk (.str "G") none
        (some [SelectMenuItem.mk (.str "A") (some "collection:42") none])] "collection:42" =
      (dfsLeaves [SelectMenuItem.mk (.str "G") none
        (some [SelectMenuItem.mk (.str "A") (some "collection:42") none])]).find?
        (fun item => item.value == some "collection:42") :=
  findMenuItem_spec
    [SelectMenuItem.mk (.str "G") none
      (some [SelectMenuItem.mk (.str "A") (some "collection:42") none])] "collection:42"

/-- Claim C3 (failing input): for the non-link key "category:1" and a tree
without a matching leaf, `getDisplayValue` dereferences the missing
search result (JavaScript: reading `.label` of `undefined`), i.e. it
crashes with a type error instead of surfacing an explicit
lookup-failure condition or a placeholder label. -/
theorem getDisplayValue_missing_deref :
    getDisplayValue [] "category:1" = Except.error JsError.typeError := by
  have h : getMenuItemData "category:1" = { id := "1", type := "category" } := by decide
  simp [getDisplayValue, h, findMenuItem]

/-- Claim C5: for every selection key whose decoded type is "link",
`getDisplayValue` returns the decoded id (the raw URL) and is
independent of the tree contents. -/
theorem getDisplayValue_link_raw (menu : List SelectMenuItem) (value : String)
    (h : (getMenuItemData value).type = "link") :
    getDisplayValue menu value = Except.ok (getMenuItemData value).id
    ∧ ∀ menu2 : List SelectMenuItem, getDisplayValue menu value = getDisplayValue menu2 value := by
  constructor
  · simp [getDisplayValue, h]
  · intro menu2
    simp [getDisplayValue, h]

theorem getDisplayValue_link_raw_check :
    getDisplayValue [] "link:https://a.b/c" = Except.ok "https://a.b/c" := by
  have h := (getDisplayValue_link_raw [] "link:https://a.b/c" (by decide)).1
  rw [h]
  exact congrArg Except.ok (by decide)

/-- Claim C4: whenever a URL has been detected (a detected URL is never the
empty string, which JavaScript would treat as falsy), the option tree is
exactly the single synthetic link leaf keyed `"link:" ++ u` — no
category or collection group survives, whatever the candidate lists. -/
theorem buildOptions_url_exclusive (categories : List Category)
    (collections : List Collection) (u : String) (h : u ≠ "") :
    buildOptions categories collections (some u) =
      [SelectMenuItem.mk (linkLabel u) (some ("link:" ++ u)) none] := by
  simp [buildOptions, h]

theorem buildOptions_url_exclusive_check :
    buildOptions [{ id := "1", name := "Shoes" }] [{ id := "2", name := "Summer" }]
      (some "https://example.com") =
      [SelectMenuItem.mk (linkLabel "https://example.com")
        (some ("link:" ++ "https://example.com")) none] :=
  buildOptions_url_exclusive [{ id := "1", name := "Shoes" }]
    [{ id := "2", name := "Summer" }] "https://example.com" (by decide)

/-- Claim C6: the query-change handler records the query as the detected URL
when the classifier accepts it, clears the detected URL when the
classifier rejects the query while a URL was detected, and in every case
emits exactly one outward query-change call carrying the raw query. -/
theorem handleQueryChange_spec (isUrl : String → Bool) (url : Option String) (q : String) :
    (isUrl q = true → handleQueryChange isUrl url q = (some q, [q]))
    ∧ (isUrl q = false → jsTruthyStr url = true → handleQueryChange isUrl url q = (none, [q]))
    ∧ (handleQueryChange isUrl url q).2 = [q] := by
  refine ⟨?_, ?_, rfl⟩
  · intro h
    simp [handleQueryChange, h]
  · intro h1 h2
    simp [handleQueryChange, h1, h2]

theorem handleQueryChange_spec_check :
    handleQueryChange (fun s => s == "https://e.com") none "https://e.com" =
      (some "https://e.com", ["https://e.com"])
    ∧ handleQueryChange (fun s => s == "https://e.com") (some "https://x") "shoes" =
      (none, ["shoes"]) :=
  ⟨(handleQueryChange_spec (fun s => s == "https://e.com") none "https://e.com").1 (by decide),
   (handleQueryChange_spec (fun s => s == "https://e.com") (some "https://x") "shoes").2.1
     (by decide) (by decide)⟩

/-- Claim C7: selecting the leaf keyed "collection:42" from a tree that
resolves that key to a stored leaf commits, in order, the form id "42",
the form type "collection", and then the display label stored on that
leaf; applying the committed updates to any coordinator state yields
that form data and that label. -/
theorem handleSelectChange_collection42 (options : List SelectMenuItem)
    (lbl : String) (st : CoordState)
    (h : findMenuItem options "collection:42" =
      some (SelectMenuItem.mk (.str lbl) (some "collection:42") none)) :
    handleSelectChange options "collection:42" =
      ([.setFormField "id" "42", .setFormField "type" "collection", .setDisplay lbl], none)
    ∧ (applyEvents st (handleSelectChange options "collection:42").1).data.id = "42"
    ∧ (applyEvents st (handleSelectChange options "collection:42").1).data.type = "collection"
    ∧ (applyEvents st (handleSelectChange options "collection:42").1).displayValue = lbl := by
  have hd : getMenuItemData "collection:42" = { id := "42", type := "collection" } := by decide
  have hdv : getDisplayValue options "collection:42" = Except.ok lbl := by
    simp [getDisplayValue, hd, h, labelToString, SelectMenuItem.label]
  have he : handleSelectChange options "collection:42" =
      ([.setFormField "id" "42", .setFormField "type" "collection", .setDisplay lbl], none) := by
    simp [handleSelectChange, hd, hdv]
  refine ⟨he, ?_, ?_, ?_⟩ <;>
    simp [he, applyEvents, applyEvent, formChange]

theorem handleSelectChange_collection42_check :
    handleSelectChange
      [SelectMenuItem.mk (.str "Collections (1)") none
        (some [SelectMenuItem.mk (.str "Summer") (some "collection:42") none])]
      "collection:42" =
      ([.setFormField "id" "42", .setFormField "type" "collection", .setDisplay "Summer"], none)
    ∧ (applyEvents { data := defaultInitial, displayValue := "" }
        (handleSelectChange
          [SelectMenuItem.mk (.str "Collections (1)") none
            (some [SelectMenuItem.mk (.str "Summer") (some "collection:42") none])]
          "collection:42").1).data.id = "42"
    ∧ (applyEvents { data := defaultInitial, displayValue := "" }
        (handleSelectChange
          [SelectMenuItem.mk (.str "Collections (1)") none
            (some [SelectMenuItem.mk (.str "Summer") (some "collection:42") none])]
          "collection:42").1).data.type = "collection"
    ∧ (applyEvents { data := defaultInitial, displayValue := "" }
        (handleSelectChange
          [SelectMenuItem.mk (.str "Collections (1)") none
            (some [SelectMenuItem.mk (.str "Summer") (some "collection:42") none])]
          "collection:42").1).displayValue = "Summer" :=
  handleSelectChange_collection42
    [SelectMenuItem.mk (.str "Collections (1)") none
      (some [SelectMenuItem.mk (.str "Summer") (some "collection:42") none])]
    "Summer" { data := defaultInitial, displayValue := "" } (by simp [findMenuItem])

/-- Claim C8 (failing input): on the input "foo:1", whose segment before the
first colon lies outside the four-member enumeration, the decoder does
not signal any error: it propagates "foo" as the decoded type. -/
theorem getMenuItemData_no_validation :
    getMenuItemData "foo:1" = { id := "1", type := "foo" }
    ∧ isMenuItemType (getMenuItemData "foo:1").type = false := by
  decide

/-- Claim C9: with no initial form data the form starts from the fixed
default record — empty id, empty name, and type "category", a member of
the enumeration rather than an empty or error value. -/
theorem defaultInitial_spec :
    formInitial none = { id := "", name := "", type := "category" }
    ∧ isMenuItemType (formInitial none).type = true := by
  decide

/-- Claim C10: the search classifies a node as a group purely by the
presence of a children list: a node carrying both children and a value
is searched only through its children (and any returned match is a
childless node, so such a node is never returned for its own value),
and a group with an empty children list never matches anything. -/
theorem findMenuItem_group_classification :
    (∀ (l : MenuLabel) (w : Option String) (cs rest : List SelectMenuItem) (v : String),
      findMenuItem (.mk l w (some cs) :: rest) v = (findMenuItem cs v).or (findMenuItem rest v))
    ∧ (∀ (menu : List SelectMenuItem) (v : String),
      (findMenuItem menu v).all (fun r => r.children.isNone) = true)
    ∧ (∀ (l : MenuLabel) (w : Option String) (rest : List SelectMenuItem) (v : String),
      findMenuItem (.mk l w (some []) :: rest) v = findMenuItem rest v) := by
  refine ⟨?_, ?_, ?_⟩
  · intro l w cs rest v
    simp [findMenuItem]
  · intro menu v
    cases h : findMenuItem menu v with
    | none => rfl
    | some r =>
      have hr : r ∈ dfsLeaves menu := by
        rw [findMenuItem_eq_dfs] at h
        exact List.mem_of_find?_eq_some h
      have hc := dfsLeaves_children_eq_none menu r hr
      simp [Option.all, hc]
  · intro l w rest v
    simp [findMenuItem]
